import Mathlib

/-!
# Verification of the rag-chatbot core

A shallow embedding of the retrieval-augmented question-answering pipeline
(`rag.js`, `vectorstore.js`, `utils.js`) of the rag-chatbot repository,
together with proofs of the specified properties.

JavaScript strings are modelled as `List Char`; JavaScript numbers used as
distances are modelled as `ℚ`; lengths and counts are `ℕ`.  Asynchronous
collaborator calls (embedding service, vector-store query, `ollama.chat`)
are modelled by passing the collaborator's outcome (an `Except`) or the
collaborator itself (a function) as an explicit argument, and exceptions
are modelled with `Except`.  Mutation of the session state object is
modelled by returning the updated state.
-/

namespace RagChatbot

/-- JavaScript strings, modelled as lists of characters. -/
abbrev JSStr := List Char

/-- Model of `String.prototype.trim`: remove leading and trailing whitespace. -/
def jsTrim (s : JSStr) : JSStr :=
  ((s.dropWhile Char.isWhitespace).reverse.dropWhile Char.isWhitespace).reverse

/-- Model of `String.prototype.split(sep)` for a one-character separator:
splits at every occurrence of the separator, keeping empty fragments, and
always returns at least one fragment (`"".split(' ') === [""]`). -/
def splitOnChar (sep : Char) : JSStr → List JSStr
  | [] => [[]]
  | x :: xs =>
    match splitOnChar sep xs with
    | [] => [[]]
    | w :: ws => if x = sep then [] :: w :: ws else (x :: w) :: ws

/-- Model of `Array.prototype.join(sep)`. -/
def joinWith (sep : JSStr) : List JSStr → JSStr
  | [] => []
  | [w] => w
  | w :: ws => w ++ sep ++ joinWith sep ws

/-- Model of `.replace(/\s+/g, ' ')`: collapse every whitespace run to one space. -/
def collapseWhitespace : JSStr → JSStr
  | [] => []
  | c :: rest =>
    if c.isWhitespace then ' ' :: collapseWhitespace (rest.dropWhile Char.isWhitespace)
    else c :: collapseWhitespace rest
termination_by l => l.length
decreasing_by
  · simp only [List.length_cons]
    exact Nat.lt_succ_of_le (List.dropWhile_sublist _).length_le
  · simp

/-- `utils.js` `sanitizeInput`: trim, then delete every `<` and `>`. -/
def sanitizeInput (input : JSStr) : JSStr :=
  (jsTrim input).filter (fun c => !(c = '<' || c = '>'))

/-!
## Text chunker (`utils.js` `chunkText`)

The JavaScript loop `for (let i = 0; i < words.length; i += chunkSize - overlap)`
is modelled by `chunkStarts`, which produces the sequence of window start
indices.  When `chunkSize - overlap = 0` the JavaScript loop never terminates
(on a non-empty word array); the model returns `[]` in that case, and every
theorem about `chunkText` assumes `overlap < chunkSize`, which makes the step
positive, exactly the regime where the JavaScript code terminates.
-/

/-- Start indices `0, step, 2·step, …` strictly below `len` (empty when `step = 0`,
where the JavaScript loop would not terminate). -/
def chunkStarts (len step : Nat) (i : Nat) : List Nat :=
  if _h : 0 < step ∧ i < len then i :: chunkStarts len step (i + step) else []
termination_by len - i
decreasing_by omega

/-- `utils.js` `chunkText`: split into words on single spaces, slide a window of
`chunkSize` words advancing by `chunkSize - overlap`, join each window with
spaces, trim it, and keep it when non-empty. -/
def chunkText (text : JSStr) (chunkSize : Nat := 400) (overlap : Nat := 50) :
    List JSStr :=
  let words := splitOnChar ' ' text
  (chunkStarts words.length (chunkSize - overlap) 0).filterMap (fun i =>
    let chunk := jsTrim (joinWith [' '] ((words.drop i).take chunkSize))
    if 0 < chunk.length then some chunk else none)

/-!
## Data model

A retrieved chunk (`vectorstore.js` `searchTopicChunks` result entry) carries
`content`, `metadata.source`, `metadata.type` and the query-time `distance`.
The metadata fields used by `rag.js` are flattened into the structure.
-/

/-- A chunk returned by the vector store at query time. -/
structure RetrievedChunk where
  content : JSStr
  source : JSStr
  ctype : JSStr
  distance : ℚ
deriving DecidableEq

/-- The configuration fields of `config.js` consumed by `rag.js`. -/
structure Config where
  maxContextLength : Nat
  maxRetrievedChunks : Nat
  allowModelKnowledge : Bool

/-- One conversation-history entry (`{role, content, timestamp}`). -/
structure HistEntry where
  role : String
  content : JSStr
  timestamp : JSStr
deriving DecidableEq

/-- `rag.js` `createRAGState`: current topic and conversation history. -/
structure RAGState where
  currentTopic : Option String
  currentTopicId : Option String
  conversationHistory : List HistEntry
deriving DecidableEq

/-- `rag.js` `createRAGState`. -/
def createRAGState : RAGState :=
  { currentTopic := none, currentTopicId := none, conversationHistory := [] }

/-- The hard-coded history cap in `rag.js` `addToHistory`. -/
def maxHistoryLength : Nat := 20

/-- `rag.js` `addToHistory`: push `{role, content, timestamp}` and, when the
cap is exceeded, keep the most recent `maxHistoryLength` entries
(`slice(-maxHistoryLength)`).  The timestamp (`new Date().toISOString()`)
is an input of the model. -/
def addToHistory (state : RAGState) (role : String) (content : JSStr)
    (now : JSStr) : RAGState :=
  let h := state.conversationHistory ++ [⟨role, content, now⟩]
  { state with
    conversationHistory :=
      if maxHistoryLength < h.length then h.drop (h.length - maxHistoryLength)
      else h }

/-- Fold a sequence of `addToHistory` calls over a state. -/
def applyAdds (state : RAGState) (adds : List (String × JSStr × JSStr)) :
    RAGState :=
  adds.foldl (fun st a => addToHistory st a.1 a.2.1 a.2.2) state

/-- `rag.js` `setTopic`: the collaborator outcome `topicExists` is passed as a
boolean; on success the topic fields are set and the history is cleared, on
failure an error is thrown.  All three state fields are (re)assigned, so the
incoming state is not read. -/
def setTopic (_state : RAGState) (topicExistsResult : Bool) (topicId : String) :
    Except String (Bool × RAGState) :=
  if topicExistsResult then
    Except.ok (true,
      { currentTopic := some topicId
        currentTopicId := some topicId
        conversationHistory := [] })
  else
    Except.error ("Topic \x22" ++ topicId ++ "\x22 not found in knowledge base")

/-- `rag.js` `clearHistory`. -/
def clearHistory (state : RAGState) : RAGState :=
  { state with conversationHistory := [] }

/-!
## Context assembly (`rag.js` `buildContext`)
-/

/-- Whether a chunk is knowledge-graph typed
(`chunk.metadata.type === 'knowledge_graph'`). -/
def isKG (c : RetrievedChunk) : Prop :=
  c.ctype = "knowledge_graph".toList

instance (c : RetrievedChunk) : Decidable (isKG c) := by
  unfold isKG; infer_instance

/-- The total preorder realised by the comparator in `rag.js` `buildContext`:
`knowledge_graph` chunks come first regardless of distance, then ascending
distance.  `chunkLE a b` holds exactly when the comparator does not place `a`
strictly after `b`. -/
def chunkLE (a b : RetrievedChunk) : Prop :=
  if isKG a ∧ ¬ isKG b then True
  else if isKG b ∧ ¬ isKG a then False
  else a.distance ≤ b.distance

instance : DecidableRel chunkLE := fun a b => by
  unfold chunkLE; infer_instance

instance : IsTotal RetrievedChunk chunkLE where
  total a b := by
    by_cases ha : isKG a <;> by_cases hb : isKG b <;>
      simp [chunkLE, ha, hb, le_total]

instance : IsTrans RetrievedChunk chunkLE where
  trans a b c hab hbc := by
    by_cases ha : isKG a <;> by_cases hb : isKG b <;> by_cases hc : isKG c <;>
      simp_all [chunkLE] <;> exact le_trans hab hbc

/-- The sorted order produced by `chunks.sort(comparator)` in `buildContext`:
a stable sort with respect to `chunkLE` (JavaScript `Array.prototype.sort`
is stable and the comparator is a consistent total preorder). -/
def sortChunks (chunks : List RetrievedChunk) : List RetrievedChunk :=
  List.insertionSort chunkLE chunks

/-- The per-chunk context block `` `Source: ${source}\n${content}\n\n` ``. -/
def blockOf (c : RetrievedChunk) : JSStr :=
  "Source: ".toList ++ c.source ++ ['\n'] ++ c.content ++ "\n\n".toList

/-- The accumulation loop of `buildContext`: append whole blocks while they
fit in `maxLength`, stopping (`break`) at the first block that does not. -/
def ctxLoop (maxLength : Nat) : List RetrievedChunk → Nat → JSStr
  | [], _ => []
  | c :: rest, currentLength =>
    let t := blockOf c
    if currentLength + t.length ≤ maxLength then
      t ++ ctxLoop maxLength rest (currentLength + t.length)
    else []

/-- `rag.js` `buildContext`: sort, accumulate whole blocks up to
`config.rag.maxContextLength`, and trim the result. -/
def buildContext (chunks : List RetrievedChunk) (config : Config) : JSStr :=
  jsTrim (ctxLoop config.maxContextLength (sortChunks chunks) 0)

/-!
## Deduplication, sources and retrieval (`rag.js`)
-/

/-- The content fingerprint of `rag.js` `deduplicateChunks`:
`content.substring(0, 100).toLowerCase().replace(/\s+/g, ' ')`. -/
def contentFingerprint (content : JSStr) : JSStr :=
  collapseWhitespace ((content.take 100).map Char.toLower)

/-- `rag.js` `deduplicateChunks`: keep the first chunk per fingerprint, in
input order (the `seen` set is modelled by the list of fingerprints met so
far). -/
def deduplicateChunks (chunks : List RetrievedChunk) : List RetrievedChunk :=
  go [] chunks
where
  go (seen : List JSStr) : List RetrievedChunk → List RetrievedChunk
    | [] => []
    | c :: rest =>
      let h := contentFingerprint c.content
      if h ∈ seen then go seen rest else c :: go (h :: seen) rest

/-- `rag.js` `extractSources`: distinct sources in first-occurrence order,
skipping falsy (empty) sources and the literal `'unknown'`. -/
def extractSources (chunks : List RetrievedChunk) : List JSStr :=
  go [] chunks
where
  go (acc : List JSStr) : List RetrievedChunk → List JSStr
    | [] => acc
    | c :: rest =>
      if c.source ≠ [] ∧ c.source ≠ "unknown".toList ∧ c.source ∉ acc then
        go (acc ++ [c.source]) rest
      else go acc rest

/-- `vectorstore.js` `searchTopicChunks`, from the retrieval side: generate the
query embedding, then run the nearest-neighbour query; either collaborator
outcome may be a failure, and a failure of either propagates out of
`searchTopicChunks` (its own `catch` re-throws). -/
def searchTopicChunks (embedResult : Except String (List ℚ))
    (queryResult : List ℚ → Except String (List RetrievedChunk)) :
    Except String (List RetrievedChunk) :=
  match embedResult with
  | Except.error e => Except.error e
  | Except.ok emb => queryResult emb

/-- `rag.js` `retrieveRelevantChunks`: search, deduplicate, and on any failure
return the empty list (`catch { return [] }`).  The warning checks
(`checkWarningConditions`) swallow their own failures and do not affect the
returned value, so they are not modelled here. -/
def retrieveRelevantChunks (embedResult : Except String (List ℚ))
    (queryResult : List ℚ → Except String (List RetrievedChunk)) :
    List RetrievedChunk :=
  match searchTopicChunks embedResult queryResult with
  | Except.error _ => []
  | Except.ok chunks => deduplicateChunks chunks

/-!
## Answer synthesis (`rag.js` `generateAnswer`, `buildPrompt`, `answerQuestion`)
-/

/-- `rag.js` `getRecentConversationContext`: last 4 entries as
`"role: content"` lines. -/
def getRecentConversationContext (state : RAGState) : JSStr :=
  if state.conversationHistory.length = 0 then []
  else
    let recent := state.conversationHistory.drop
      (state.conversationHistory.length - 4)
    joinWith ['\n']
      (recent.map (fun e => e.role.toList ++ ": ".toList ++ e.content))

/-- `rag.js` `buildPrompt`. -/
def buildPrompt (question : JSStr) (context : JSStr) (state : RAGState)
    (allowModelKnowledge : Bool) : JSStr :=
  let conversationContext := getRecentConversationContext state
  let intro : JSStr :=
    if allowModelKnowledge then
      ("You are an expert assistant. If the context below answers the question, use it. If the context is missing or unrelated, use your own knowledge.\n\n").toList
    else
      ("You are an expert assistant. Answer the user\x27s question using only the context below. If the context doesn\x27t have the answer, say \x22I don\x27t know.\x22\n\n").toList
  let p1 := intro ++ "--- CONTEXT START ---\n".toList ++
    (if context = [] then "No relevant context found.".toList else context) ++
    "\n--- CONTEXT END ---\n".toList
  let p2 :=
    if conversationContext = [] then p1
    else p1 ++ "\n\n--- RECENT CONVERSATION ---\n".toList ++ conversationContext
  p2 ++ "\n\n--- QUESTION ---\n".toList ++ question

/-- `rag.js` `generateAnswer`: build context and prompt, invoke the chat
collaborator (an oracle from system prompt and prompt to an outcome), and
trim the returned content; a collaborator failure is re-thrown. -/
def generateAnswer (config : Config) (question : JSStr)
    (chunks : List RetrievedChunk) (state : RAGState)
    (chat : JSStr → JSStr → Except String JSStr) : Except String JSStr :=
  let context := buildContext chunks config
  let prompt := buildPrompt question context state config.allowModelKnowledge
  let hybridPrompt : JSStr :=
    ("You are a helpful AI assistant that answers user questions.\n\nUse the context provided **if it\x27s helpful**. If the context is unrelated or missing the answer, feel free to use your own knowledge.\n\nClearly prefer context when it\x27s available and relevant — otherwise, use internal knowledge to answer accurately.\n\nBe concise and informative.").toList
  let strictPrompt : JSStr :=
    ("You are a helpful AI assistant.\n\nOnly answer questions using the provided context. If the context doesn\x27t contain enough information, say:\n\x22I don\x27t have enough information in my knowledge base to answer that question.\x22\n\nDo not use your internal knowledge, even if you know the answer.").toList
  let systemPrompt : JSStr :=
    if config.allowModelKnowledge then hybridPrompt else strictPrompt
  match chat systemPrompt prompt with
  | Except.error e => Except.error e
  | Except.ok content => Except.ok (jsTrim content)

/-- The fixed fallback sentinel of `rag.js` `answerQuestion`. -/
def noInfoAnswer : JSStr :=
  "I don\x27t have enough information in my knowledge base to answer that question.".toList

/-- One `context_used` entry of the `answerQuestion` result. -/
structure CtxEntry where
  content : JSStr
  source : JSStr
  ctype : JSStr
deriving DecidableEq

/-- The result object of `rag.js` `answerQuestion` (the fallback branch does
not set `context_used`, hence the `Option`). -/
structure AnswerResult where
  answer : JSStr
  sources : List JSStr
  chunks_used : Nat
  topic : String
  context_used : Option (List CtxEntry)
deriving DecidableEq

/-- The observable outcome of one `answerQuestion` call: the returned value or
thrown error, the state after the call, and how many times the generation
collaborator (`ollama.chat`) was invoked. -/
structure AnswerOutcome where
  result : Except String AnswerResult
  finalState : RAGState
  chatCalls : Nat

/-- `rag.js` `answerQuestion`.  The retrieval outcome (`retrieveRelevantChunks`
never throws, see `retrieveRelevantChunks`) is the `retrieved` argument; the
generation collaborator is the `chat` oracle; `now` is the timestamp used for
history entries.  Each `generateAnswer` call performs exactly one
`ollama.chat` invocation, counted in `chatCalls`. -/
def answerQuestion (state : RAGState) (config : Config)
    (retrieved : List RetrievedChunk)
    (chat : JSStr → JSStr → Except String JSStr)
    (now : JSStr) (question : JSStr) : AnswerOutcome :=
  match state.currentTopicId with
  | none => ⟨Except.error "No topic set. Please set a topic first.", state, 0⟩
  | some topicId =>
    let sanitizedQuestion := sanitizeInput question
    if jsTrim sanitizedQuestion = [] then
      ⟨Except.error "Question cannot be empty", state, 0⟩
    else if retrieved.length = 0 ∧ config.allowModelKnowledge then
      match generateAnswer config sanitizedQuestion [] state chat with
      | Except.error e => ⟨Except.error e, state, 1⟩
      | Except.ok answer =>
        let s1 := addToHistory state "user" sanitizedQuestion now
        let s2 := addToHistory s1 "assistant" answer now
        ⟨Except.ok ⟨answer, [], 0, topicId, some []⟩, s2, 1⟩
    else if retrieved.length = 0 then
      ⟨Except.ok ⟨noInfoAnswer, [], 0, topicId, none⟩, state, 0⟩
    else
      match generateAnswer config sanitizedQuestion retrieved state chat with
      | Except.error e => ⟨Except.error e, state, 1⟩
      | Except.ok answer =>
        let s1 := addToHistory state "user" sanitizedQuestion now
        let s2 := addToHistory s1 "assistant" answer now
        ⟨Except.ok ⟨answer, extractSources retrieved, retrieved.length, topicId,
          some (retrieved.map (fun c =>
            ⟨c.content.take 100 ++ "...".toList, c.source, c.ctype⟩))⟩, s2, 1⟩

/-!
## Store write (`vectorstore.js` `storeTopicChunks`)
-/

/-- A chunk as handed to `storeTopicChunks` during ingestion. -/
structure IngestChunk where
  id : String
  content : JSStr
  source : JSStr
  url : JSStr
  ctype : JSStr

/-- The metadata object written per chunk (the fields used downstream). -/
structure ChunkMeta where
  source : JSStr
  ctype : JSStr
deriving DecidableEq

/-- One record of the vector-store collection. -/
structure StoredRecord where
  id : String
  embedding : List ℚ
  document : JSStr
  metadata : ChunkMeta
deriving DecidableEq

/-- The error message thrown by the length check in `storeTopicChunks`. -/
def mismatchMsg (ids : List String) (embeddings : List (List ℚ))
    (documents : List JSStr) (metadatas : List ChunkMeta) : String :=
  "Length mismatch: ids=" ++ toString ids.length ++
    ", embeddings=" ++ toString embeddings.length ++
    ", documents=" ++ toString documents.length ++
    ", metadatas=" ++ toString metadatas.length

/-- The guarded batch write of `storeTopicChunks` (`vectorstore.js` lines
99–111): check that the four arrays have equal length; on a mismatch throw
and never reach `collection.add`, otherwise append one record per position.
The collection contents are the explicit `store` argument; an error outcome
carries no new store, so the store is unchanged on that path. -/
def storeWrite (store : List StoredRecord) (ids : List String)
    (embeddings : List (List ℚ)) (documents : List JSStr)
    (metadatas : List ChunkMeta) : Except String (List StoredRecord) :=
  if ids.length ≠ embeddings.length ∨ ids.length ≠ documents.length ∨
      ids.length ≠ metadatas.length then
    Except.error (mismatchMsg ids embeddings documents metadatas)
  else
    Except.ok (store ++
      (((ids.zip embeddings).zip documents).zip metadatas).map
        (fun x => ⟨x.1.1.1, x.1.1.2, x.1.2, x.2⟩))

/-- `vectorstore.js` `storeTopicChunks`: build the four parallel arrays from
the chunk list (one embedding per chunk via the embedding collaborator) and
perform the guarded batch write. -/
def storeTopicChunks (store : List StoredRecord) (topicId : String)
    (chunks : List IngestChunk) (embedFn : JSStr → List ℚ) :
    Except String (List StoredRecord) :=
  let embeddings := chunks.map (fun c => embedFn c.content)
  let ids := chunks.map (fun c => topicId ++ "_" ++ c.id)
  let documents := chunks.map (fun c => c.content)
  let metadatas := chunks.map (fun c => (⟨c.source, c.ctype⟩ : ChunkMeta))
  storeWrite store ids embeddings documents metadatas

/-!
## Confidence scorer
-/

/-- Modelled from the spec: the Confidence Scorer of spec section 4.7 — the
source file implementing it is not among the provided source files (only the
README mentions the displayed confidence score).  Faithful to the spec's
words: output is an integer 0–100; an empty list scores 0; otherwise
`similarity = max(0, 1 − meanDistance)`,
`qualityBoost = min(0.15 × countOfChunksFromAllowlistedSources, 0.4)`,
`sourceCountBoost = min(0.1 × chunkCount, 0.3)`,
`confidence = round(100 × min(1, similarity + qualityBoost + sourceCountBoost))`.
The allowlist membership test is an explicit predicate argument. -/
def calculateConfidence (isAllowlisted : RetrievedChunk → Bool)
    (chunks : List RetrievedChunk) : ℤ :=
  if chunks.isEmpty then 0
  else
    let n : ℚ := chunks.length
    let meanDistance : ℚ := (chunks.map (fun c => c.distance)).sum / n
    let similarity : ℚ := max 0 (1 - meanDistance)
    let qualityBoost : ℚ :=
      min ((15 / 100 : ℚ) * (chunks.filter isAllowlisted).length) (4 / 10)
    let sourceCountBoost : ℚ := min ((1 / 10 : ℚ) * chunks.length) (3 / 10)
    round ((100 : ℚ) * min 1 (similarity + qualityBoost + sourceCountBoost))

/-!
## Helper lemmas
-/

/-- One `addToHistory` call always leaves at most `maxHistoryLength` entries. -/
theorem addToHistory_length_le (s : RAGState) (r : String) (c t : JSStr) :
    (addToHistory s r c t).conversationHistory.length ≤ maxHistoryLength := by
  unfold addToHistory
  dsimp only
  split
  · simp only [List.length_drop]
    omega
  · simp only [List.length_append, List.length_cons, List.length_nil] at *
    omega

/-- Rounding keeps a rational in `[0, 100]` inside the integer range `[0, 100]`. -/
theorem round_mem_range (x : ℚ) (h0 : 0 ≤ x) (h1 : x ≤ 100) :
    0 ≤ round x ∧ round x ≤ 100 := by
  rw [round_eq]
  constructor
  · exact Int.floor_nonneg.mpr (by linarith)
  · have h2 : ⌊x + 1 / 2⌋ ≤ ⌊(100 : ℚ) + 1 / 2⌋ := Int.floor_le_floor (by linarith)
    have h3 : ⌊(100 : ℚ) + 1 / 2⌋ = 100 := by
      rw [Int.floor_eq_iff]
      norm_num
    omega

/-- `splitOnChar` always returns at least one fragment. -/
theorem splitOnChar_ne_nil (sep : Char) (l : JSStr) : splitOnChar sep l ≠ [] := by
  induction l with
  | nil => simp [splitOnChar]
  | cons x xs ih =>
    unfold splitOnChar
    cases h : splitOnChar sep xs with
    | nil => simp
    | cons w ws => dsimp only; split <;> simp

/-- Joining the fragments of a one-character split with that separator
reproduces the original string. -/
theorem joinWith_splitOnChar (sep : Char) (l : JSStr) :
    joinWith [sep] (splitOnChar sep l) = l := by
  induction l with
  | nil => rfl
  | cons x xs ih =>
    unfold splitOnChar
    cases h : splitOnChar sep xs with
    | nil => exact absurd h (splitOnChar_ne_nil sep xs)
    | cons w ws =>
      rw [h] at ih
      dsimp only
      by_cases hx : x = sep
      · rw [if_pos hx]
        show [] ++ [sep] ++ joinWith [sep] (w :: ws) = x :: xs
        simp [ih, hx]
      · rw [if_neg hx]
        cases ws with
        | nil =>
          show x :: w = x :: xs
          simpa [joinWith] using ih
        | cons w2 ws2 =>
          show (x :: w) ++ [sep] ++ joinWith [sep] (w2 :: ws2) = x :: xs
          rw [← ih]
          simp [joinWith]

/-- Every index below `len` lies in the window `[k, k + cs)` of some generated
start `k`, provided the step is positive and no larger than the window. -/
theorem chunkStarts_cover (len step cs : Nat) (hstep : 0 < step)
    (hcs : step ≤ cs) :
    ∀ i j, i ≤ j → j < len →
      ∃ k ∈ chunkStarts len step i, k ≤ j ∧ j < k + cs := by
  have main : ∀ n i, len - i ≤ n → ∀ j, i ≤ j → j < len →
      ∃ k ∈ chunkStarts len step i, k ≤ j ∧ j < k + cs := by
    intro n
    induction n with
    | zero => intro i hi j hij hj; omega
    | succ n ih =>
      intro i hi j hij hj
      have hilen : i < len := lt_of_le_of_lt hij hj
      rw [chunkStarts, dif_pos ⟨hstep, hilen⟩]
      by_cases hjw : j < i + cs
      · exact ⟨i, List.mem_cons_self _ _, hij, hjw⟩
      · obtain ⟨k, hkmem, hk⟩ := ih (i + step) (by omega) j (by omega) hj
        exact ⟨k, List.mem_cons_of_mem _ hkmem, hk⟩
  exact fun i j hij hj => main (len - i) i le_rfl j hij hj

/-- The loop generates at most `len - i` start indices. -/
theorem chunkStarts_length_le (len step : Nat) :
    ∀ i, (chunkStarts len step i).length ≤ len - i := by
  have main : ∀ n i, len - i ≤ n → (chunkStarts len step i).length ≤ len - i := by
    intro n
    induction n with
    | zero =>
      intro i hi
      rw [chunkStarts]
      split
      · omega
      · simp
    | succ n ih =>
      intro i hi
      rw [chunkStarts]
      split
      · rename_i h
        have := ih (i + step) (by omega)
        simp only [List.length_cons]
        omega
      · simp
  exact fun i => main (len - i) i le_rfl

/-- The trim of a string is never longer than the string. -/
theorem jsTrim_length_le (s : JSStr) : (jsTrim s).length ≤ s.length := by
  unfold jsTrim
  simp only [List.length_reverse]
  refine le_trans (List.dropWhile_sublist _).length_le ?_
  simp only [List.length_reverse]
  exact (List.dropWhile_sublist _).length_le

/-- The context accumulation loop never produces more characters than the
remaining budget. -/
theorem ctxLoop_length_le (maxLength : Nat) :
    ∀ (l : List RetrievedChunk) (cur : Nat),
      (ctxLoop maxLength l cur).length ≤ maxLength - cur := by
  intro l
  induction l with
  | nil => intro cur; simp [ctxLoop]
  | cons c rest ih =>
    intro cur
    unfold ctxLoop
    dsimp only
    split
    · rename_i hfit
      rw [List.length_append]
      have := ih (cur + (blockOf c).length)
      omega
    · simp

/-- The context accumulation loop emits the concatenated whole blocks of some
prefix of its input list. -/
theorem ctxLoop_block_join (maxLength : Nat) :
    ∀ (l : List RetrievedChunk) (cur : Nat),
      ∃ pre rest, l = pre ++ rest ∧
        ctxLoop maxLength l cur = (pre.map blockOf).flatten := by
  intro l
  induction l with
  | nil => exact fun cur => ⟨[], [], rfl, rfl⟩
  | cons c rest ih =>
    intro cur
    unfold ctxLoop
    dsimp only
    split
    · obtain ⟨pre, rest', h1, h2⟩ := ih (cur + (blockOf c).length)
      refine ⟨c :: pre, rest', by rw [h1]; rfl, ?_⟩
      rw [h2]
      simp
    · exact ⟨[], c :: rest, rfl, rfl⟩

/-!
## Claim theorems
-/

/-- C4: after any sequence of `addToHistory` calls the history length stays at
most the cap, each call keeps some suffix of the old history extended with the
new entry (oldest entries dropped first), and every successful `setTopic` call
leaves the conversation history empty. -/
theorem history_capped_and_setTopic_clears :
    (∀ (s : RAGState) (adds : List (String × JSStr × JSStr)),
        s.conversationHistory.length ≤ maxHistoryLength →
        (applyAdds s adds).conversationHistory.length ≤ maxHistoryLength) ∧
    (∀ (s : RAGState) (r : String) (c t : JSStr), ∃ k,
        (addToHistory s r c t).conversationHistory =
          (s.conversationHistory ++ [HistEntry.mk r c t]).drop k) ∧
    (∀ (s : RAGState) (e : Bool) (tid : String) (b : Bool) (s' : RAGState),
        setTopic s e tid = Except.ok (b, s') → s'.conversationHistory = []) := by
  refine ⟨?_, ?_, ?_⟩
  · intro s adds
    induction adds generalizing s with
    | nil => intro h; exact h
    | cons a rest ih =>
      intro _
      exact ih (addToHistory s a.1 a.2.1 a.2.2) (addToHistory_length_le _ _ _ _)
  · intro s r c t
    by_cases hlen : maxHistoryLength < (s.conversationHistory ++ [HistEntry.mk r c t]).length
    · exact ⟨(s.conversationHistory ++ [HistEntry.mk r c t]).length - maxHistoryLength,
        by simp only [addToHistory, if_pos hlen]⟩
    · exact ⟨0, by simp only [addToHistory, if_neg hlen, List.drop_zero]⟩
  · intro s e tid b s' h
    unfold setTopic at h
    split at h
    · cases h
      rfl
    · cases h

/-- Witness for C4 at a concrete input. -/
theorem history_capped_and_setTopic_clears_witness :
    (applyAdds createRAGState
        [("user", "hi".toList, []), ("assistant", "yo".toList, [])]
      ).conversationHistory.length ≤ maxHistoryLength :=
  history_capped_and_setTopic_clears.1 createRAGState
    [("user", "hi".toList, []), ("assistant", "yo".toList, [])] (by decide)

/-- C5: whenever the four parallel arrays do not all have the same length, the
guarded store write fails with the length-mismatch error and the batch write
never happens (no `Except.ok` outcome, so the collection is unchanged). -/
theorem storeWrite_mismatch_fails (store : List StoredRecord)
    (ids : List String) (embeddings : List (List ℚ)) (documents : List JSStr)
    (metadatas : List ChunkMeta)
    (h : ¬(ids.length = embeddings.length ∧ ids.length = documents.length ∧
        ids.length = metadatas.length)) :
    storeWrite store ids embeddings documents metadatas =
      Except.error (mismatchMsg ids embeddings documents metadatas) ∧
    ∀ store', storeWrite store ids embeddings documents metadatas ≠
      Except.ok store' := by
  have hcond : ids.length ≠ embeddings.length ∨ ids.length ≠ documents.length ∨
      ids.length ≠ metadatas.length := by tauto
  unfold storeWrite
  rw [if_pos hcond]
  exact ⟨rfl, fun _ h' => by cases h'⟩

/-- Witness for C5: `ids` of length 3 with `embeddings` of length 2 raises the
error and performs no write. -/
theorem storeWrite_mismatch_fails_witness :
    storeWrite [] ["a", "b", "c"] [[], []] [[], [], []]
        [⟨[], []⟩, ⟨[], []⟩, ⟨[], []⟩] =
      Except.error (mismatchMsg ["a", "b", "c"] [[], []] [[], [], []]
        [⟨[], []⟩, ⟨[], []⟩, ⟨[], []⟩]) :=
  (storeWrite_mismatch_fails [] ["a", "b", "c"] [[], []] [[], [], []]
    [⟨[], []⟩, ⟨[], []⟩, ⟨[], []⟩] (by decide)).1

/-- C6: if the embedding or vector-store query collaborator fails inside
retrieval, `retrieveRelevantChunks` returns the empty chunk list instead of
propagating the error. -/
theorem retrieveRelevantChunks_empty_on_failure
    (embedResult : Except String (List ℚ))
    (queryResult : List ℚ → Except String (List RetrievedChunk)) (msg : String)
    (h : searchTopicChunks embedResult queryResult = Except.error msg) :
    retrieveRelevantChunks embedResult queryResult = [] := by
  unfold retrieveRelevantChunks
  rw [h]

/-- Witness for C6 at a concrete failing embedding collaborator. -/
theorem retrieveRelevantChunks_empty_on_failure_witness :
    retrieveRelevantChunks (Except.error "embedding failed")
      (fun _ => Except.ok []) = [] :=
  retrieveRelevantChunks_empty_on_failure (Except.error "embedding failed")
    (fun _ => Except.ok []) "embedding failed" rfl

/-- C7: in the order used for context assembly, a knowledge-graph chunk never
follows a non-knowledge-graph chunk, within one type distances ascend, and the
sorted list is a permutation of the input. -/
theorem sortChunks_kg_first_then_distance (chunks : List RetrievedChunk) :
    List.Pairwise (fun a b => (isKG b → isKG a) ∧
      ((isKG a ↔ isKG b) → a.distance ≤ b.distance)) (sortChunks chunks) ∧
    List.Perm (sortChunks chunks) chunks := by
  constructor
  · refine List.Pairwise.imp ?_ (List.sorted_insertionSort chunkLE chunks)
    intro a b hab
    by_cases ha : isKG a <;> by_cases hb : isKG b <;>
      simp_all [chunkLE]
  · exact List.perm_insertionSort chunkLE chunks

/-- C9: the confidence score is an integer in `[0, 100]`, and the confidence of
an empty chunk list is exactly 0. -/
theorem calculateConfidence_bounds (isAllowlisted : RetrievedChunk → Bool)
    (chunks : List RetrievedChunk) :
    0 ≤ calculateConfidence isAllowlisted chunks ∧
    calculateConfidence isAllowlisted chunks ≤ 100 ∧
    calculateConfidence isAllowlisted [] = 0 := by
  refine ⟨?_, ?_, by simp [calculateConfidence]⟩ <;>
  · unfold calculateConfidence
    split
    · simp
    · dsimp only
      set sim : ℚ := max 0 (1 - (chunks.map (fun c => c.distance)).sum /
        (chunks.length : ℚ)) with hsim
      set qb : ℚ := min ((15 / 100 : ℚ) * (chunks.filter isAllowlisted).length)
        (4 / 10) with hqb
      set scb : ℚ := min ((1 / 10 : ℚ) * chunks.length) (3 / 10) with hscb
      have hsim0 : 0 ≤ sim := le_max_left _ _
      have hqb0 : 0 ≤ qb := le_min
        (mul_nonneg (by norm_num) (Nat.cast_nonneg _)) (by norm_num)
      have hscb0 : 0 ≤ scb := le_min
        (mul_nonneg (by norm_num) (Nat.cast_nonneg _)) (by norm_num)
      have hx0 : (0 : ℚ) ≤ 100 * min 1 (sim + qb + scb) :=
        mul_nonneg (by norm_num) (le_min (by norm_num) (by linarith))
      have hx1 : (100 : ℚ) * min 1 (sim + qb + scb) ≤ 100 := by
        have := min_le_left (1 : ℚ) (sim + qb + scb)
        nlinarith
      first
      | exact (round_mem_range _ hx0 hx1).1
      | exact (round_mem_range _ hx0 hx1).2

/-- C1: with a topic set, a (non-empty) question, zero retrieved chunks, and
strict mode (`allowModelKnowledge = false`), `answerQuestion` returns exactly
the sentinel answer with empty sources and `chunks_used = 0`, and the
generation collaborator is never invoked. -/
theorem answerQuestion_strict_sentinel (state : RAGState) (config : Config)
    (chat : JSStr → JSStr → Except String JSStr) (now question : JSStr)
    (topicId : String)
    (htopic : state.currentTopicId = some topicId)
    (hq : jsTrim (sanitizeInput question) ≠ [])
    (hmode : config.allowModelKnowledge = false) :
    (answerQuestion state config [] chat now question).result =
      Except.ok ⟨noInfoAnswer, [], 0, topicId, none⟩ ∧
    (answerQuestion state config [] chat now question).chatCalls = 0 := by
  unfold answerQuestion
  rw [htopic]
  simp [hq, hmode]

/-- Witness for C1 at a concrete state, question and configuration. -/
theorem answerQuestion_strict_sentinel_witness :
    (answerQuestion ⟨some "rust", some "rust", []⟩ ⟨2000, 8, false⟩ []
        (fun _ _ => Except.ok []) [] "What is Rust?".toList).result =
      Except.ok ⟨noInfoAnswer, [], 0, "rust", none⟩ ∧
    (answerQuestion ⟨some "rust", some "rust", []⟩ ⟨2000, 8, false⟩ []
        (fun _ _ => Except.ok []) [] "What is Rust?".toList).chatCalls = 0 :=
  answerQuestion_strict_sentinel ⟨some "rust", some "rust", []⟩ ⟨2000, 8, false⟩
    (fun _ _ => Except.ok []) [] "What is Rust?".toList "rust" rfl
    (by decide) rfl

/-- C10: on the strict-mode zero-chunk fallback path, `answerQuestion` leaves
the conversation state untouched: history, current topic and current topic id
are exactly as before the call. -/
theorem answerQuestion_strict_frame (state : RAGState) (config : Config)
    (chat : JSStr → JSStr → Except String JSStr) (now question : JSStr)
    (topicId : String)
    (htopic : state.currentTopicId = some topicId)
    (hq : jsTrim (sanitizeInput question) ≠ [])
    (hmode : config.allowModelKnowledge = false) :
    (answerQuestion state config [] chat now question).finalState.conversationHistory =
      state.conversationHistory ∧
    (answerQuestion state config [] chat now question).finalState.currentTopic =
      state.currentTopic ∧
    (answerQuestion state config [] chat now question).finalState.currentTopicId =
      state.currentTopicId := by
  unfold answerQuestion
  rw [htopic]
  simp [hq, hmode, htopic]

/-- Witness for C10 at a concrete state with non-empty history. -/
theorem answerQuestion_strict_frame_witness :
    (answerQuestion ⟨some "go", some "go", [⟨"user", "q".toList, []⟩]⟩
        ⟨2000, 8, false⟩ [] (fun _ _ => Except.ok []) []
        "Tell me more".toList).finalState.conversationHistory =
      [⟨"user", "q".toList, []⟩] ∧
    (answerQuestion ⟨some "go", some "go", [⟨"user", "q".toList, []⟩]⟩
        ⟨2000, 8, false⟩ [] (fun _ _ => Except.ok []) []
        "Tell me more".toList).finalState.currentTopic = some "go" ∧
    (answerQuestion ⟨some "go", some "go", [⟨"user", "q".toList, []⟩]⟩
        ⟨2000, 8, false⟩ [] (fun _ _ => Except.ok []) []
        "Tell me more".toList).finalState.currentTopicId = some "go" :=
  answerQuestion_strict_frame ⟨some "go", some "go", [⟨"user", "q".toList, []⟩]⟩
    ⟨2000, 8, false⟩ (fun _ _ => Except.ok []) [] "Tell me more".toList "go" rfl
    (by decide) rfl

/-- C2: for `0 < overlap < chunkSize`, `chunkText` (a total function whose
loop advances by the positive step `chunkSize - overlap`) yields finitely many
chunks — at most one per word — each chunk is non-empty, and the word windows
`[i, i + chunkSize)` generated by the loop cover every word index of the
input. -/
theorem chunkText_nonempty_and_covering (text : JSStr) (chunkSize overlap : Nat)
    (h1 : 0 < overlap) (h2 : overlap < chunkSize) :
    (∀ c ∈ chunkText text chunkSize overlap, c ≠ []) ∧
    (chunkText text chunkSize overlap).length ≤ (splitOnChar ' ' text).length ∧
    (∀ j < (splitOnChar ' ' text).length,
      ∃ i ∈ chunkStarts (splitOnChar ' ' text).length (chunkSize - overlap) 0,
        i ≤ j ∧ j < i + chunkSize) := by
  refine ⟨?_, ?_, ?_⟩
  · intro c hc
    simp only [chunkText, List.mem_filterMap] at hc
    obtain ⟨i, _, hf⟩ := hc
    split at hf
    · rename_i hpos
      cases hf
      exact List.ne_nil_of_length_pos hpos
    · cases hf
  · refine le_trans (List.length_filterMap_le _ _) ?_
    simpa using chunkStarts_length_le (splitOnChar ' ' text).length
      (chunkSize - overlap) 0
  · intro j hj
    exact chunkStarts_cover (splitOnChar ' ' text).length (chunkSize - overlap)
      chunkSize (by omega) (by omega) 0 j (Nat.zero_le j) hj

/-- Witness for C2 at the spec's own example input. -/
theorem chunkText_nonempty_and_covering_witness :
    (chunkText "a b c d e f".toList 4 1).length ≤
      (splitOnChar ' ' "a b c d e f".toList).length :=
  (chunkText_nonempty_and_covering "a b c d e f".toList 4 1 (by decide)
    (by decide)).2.1

/-- Counterexample to C3 as stated: one chunk that fits entirely yields the
output `"Source: s\nc"`, which is not a concatenation of complete
`"Source: <source>\n<content>\n\n"` blocks — the final `.trim()` strips the
trailing block separator. -/
theorem buildContext_complete_blocks_cex :
    buildContext [⟨"c".toList, "s".toList, "search_result".toList, 0⟩]
        ⟨100, 8, false⟩ = "Source: s\nc".toList ∧
    ¬ ∃ l : List RetrievedChunk,
        l.Sublist [⟨"c".toList, "s".toList, "search_result".toList, 0⟩] ∧
        "Source: s\nc".toList = (l.map blockOf).flatten := by
  constructor
  · decide
  · rintro ⟨l, hsub, hjoin⟩
    have hcases : l = [] ∨
        l = [⟨"c".toList, "s".toList, "search_result".toList, 0⟩] := by
      cases hsub with
      | cons _ h => exact Or.inl (List.sublist_nil.mp h)
      | cons₂ _ h => exact Or.inr (by rw [List.sublist_nil.mp h])
    rcases hcases with h | h <;> subst h <;> revert hjoin <;> decide

/-- C3 amended: the `buildContext` output never exceeds `maxContextLength`,
and it is the whitespace-trim of a concatenation of complete per-chunk blocks
for a prefix of the sorted chunk list (no chunk content is cut inside a
block; only outer whitespace — in particular the final block separator — is
removed by the trailing `.trim()`). -/
theorem buildContext_bounded_whole_blocks (chunks : List RetrievedChunk)
    (config : Config) :
    (buildContext chunks config).length ≤ config.maxContextLength ∧
    ∃ pre rest, sortChunks chunks = pre ++ rest ∧
      buildContext chunks config = jsTrim ((pre.map blockOf).flatten) := by
  constructor
  · refine le_trans (jsTrim_length_le _) ?_
    simpa using ctxLoop_length_le config.maxContextLength (sortChunks chunks) 0
  · obtain ⟨pre, rest, h1, h2⟩ :=
      ctxLoop_block_join config.maxContextLength (sortChunks chunks) 0
    exact ⟨pre, rest, h1, by unfold buildContext; rw [h2]⟩

/-- Counterexample to C8 as stated: `"a b c"` has 3 words, fewer than
`chunkSize = 4`, yet with `overlap = 2` (step `2`) `chunkText` yields two
chunks, `["a b c", "c"]`, not one. -/
theorem chunkText_single_chunk_cex :
    (splitOnChar ' ' "a b c".toList).length < 4 ∧
    chunkText "a b c".toList 4 2 = ["a b c".toList, "c".toList] ∧
    (chunkText "a b c".toList 4 2).length ≠ 1 := by
  have hstarts : chunkStarts 3 2 0 = [0, 2] := by
    rw [chunkStarts, dif_pos (by omega), chunkStarts, dif_pos (by omega),
      chunkStarts, dif_neg (by omega)]
  have hlen3 : (splitOnChar ' ' "a b c".toList).length = 3 := by decide
  have heval : chunkText "a b c".toList 4 2 = ["a b c".toList, "c".toList] := by
    simp only [chunkText, hlen3, hstarts]
    decide
  exact ⟨by decide, heval, by rw [heval]; decide⟩

/-- C8 amended: when the word count is at most the window step
`chunkSize - overlap` (so the second window start already falls outside the
text) and the text does not trim to nothing, `chunkText` yields exactly one
chunk, the trimmed whole text. -/
theorem chunkText_single_chunk (text : JSStr) (chunkSize overlap : Nat)
    (h1 : 0 < overlap) (h2 : overlap < chunkSize)
    (hlen : (splitOnChar ' ' text).length ≤ chunkSize - overlap)
    (hne : jsTrim text ≠ []) :
    chunkText text chunkSize overlap = [jsTrim text] := by
  have hwords : 0 < (splitOnChar ' ' text).length :=
    List.length_pos.mpr (splitOnChar_ne_nil ' ' text)
  have hstarts : chunkStarts (splitOnChar ' ' text).length
      (chunkSize - overlap) 0 = [0] := by
    rw [chunkStarts, dif_pos ⟨by omega, hwords⟩, chunkStarts,
      dif_neg (by omega)]
  have htake : (splitOnChar ' ' text).take chunkSize = splitOnChar ' ' text :=
    List.take_of_length_le (by omega)
  have hpos : 0 < (jsTrim text).length := List.length_pos.mpr hne
  simp only [chunkText, hstarts, List.filterMap_cons, List.filterMap_nil,
    List.drop_zero, htake, joinWith_splitOnChar, hpos, if_true]

/-- Witness for C8 (amended) at a concrete input. -/
theorem chunkText_single_chunk_witness :
    chunkText "a b".toList 4 2 = [jsTrim "a b".toList] :=
  chunkText_single_chunk "a b".toList 4 2 (by decide) (by decide) (by decide)
    (by decide)

end RagChatbot
